import Mathlib

/-!
Verification development for the qf-lib signal-to-order core:
`InitialRiskPositionSizer` (market/stop order generation),
`AlphaModelStrategy` (open-position cap enforcement, exposure
reconciliation, order submission) and the `ExecutionStyle` family.

The Python code is shallowly embedded: Python floats are modelled as an

inductive type over exact rationals extended with NaN and the two
infinities, fallible Python code (assert statements, ZeroDivisionError,
ValueError) is modelled with `Except`, and collaborators that the code
calls (order factory, broker, random sampler) are passed in as explicit
function parameters, constrained only by their documented contracts.
-/

instance {ε α : Type} [DecidableEq ε] [DecidableEq α] : DecidableEq (Except ε α) := fun a b =>
  match a, b with
  | Except.ok x, Except.ok y =>
      if h : x = y then isTrue (by simp [h]) else isFalse (by simp [h])
  | Except.error x, Except.error y =>
      if h : x = y then isTrue (by simp [h]) else isFalse (by simp [h])
  | Except.ok _, Except.error _ => isFalse (by simp)
  | Except.error _, Except.ok _ => isFalse (by simp)

/-- Errors raised by the embedded Python code: `assert` failures,
float division by zero, and `ValueError` (raised by `random.sample`
when the requested sample is larger than the population). -/
inductive PyError where
  | assertionError (msg : String)
  | zeroDivisionError
  | valueError (msg : String)
deriving DecidableEq, Repr

/-- A Python float: an exact finite value (modelled as a rational), NaN,
or one of the two infinities. -/
inductive PyFloat where
  | finite (q : ℚ)
  | nan
  | inf
  | ninf
deriving DecidableEq, Repr

/-- Modelled from the spec: `is_finite_number` (from
`qf_lib.common.utils.numberutils.is_finite_number`, not under `src/`)
decides whether a value is a finite number, i.e. neither NaN nor an
infinity ("finite, non-NaN, non-infinite numbers"). -/
def is_finite_number : PyFloat → Bool
  | PyFloat.finite _ => true
  | _ => false

/-- A Python `assert cond, msg` statement: raises `AssertionError(msg)`
when the condition is false. -/
def pyAssert (cond : Bool) (msg : String) : Except PyError Unit :=
  if cond then Except.ok () else Except.error (PyError.assertionError msg)

/-- Python float division. A zero divisor raises `ZeroDivisionError`
(checked before any IEEE rule applies); otherwise NaN propagates,
infinities divide by finite values to signed infinities, finite values
divided by infinities give zero, and two finite values divide exactly
(finite-precision rounding and overflow are not modelled). -/
def pyDiv (a b : PyFloat) : Except PyError PyFloat :=
  if b = PyFloat.finite 0 then Except.error PyError.zeroDivisionError
  else
    match a, b with
    | PyFloat.finite x, PyFloat.finite y => Except.ok (PyFloat.finite (x / y))
    | PyFloat.nan, _ => Except.ok PyFloat.nan
    | _, PyFloat.nan => Except.ok PyFloat.nan
    | PyFloat.inf, PyFloat.inf => Except.ok PyFloat.nan
    | PyFloat.inf, PyFloat.ninf => Except.ok PyFloat.nan
    | PyFloat.ninf, PyFloat.inf => Except.ok PyFloat.nan
    | PyFloat.ninf, PyFloat.ninf => Except.ok PyFloat.nan
    | PyFloat.inf, PyFloat.finite y => Except.ok (if 0 ≤ y then PyFloat.inf else PyFloat.ninf)
    | PyFloat.ninf, PyFloat.finite y => Except.ok (if 0 ≤ y then PyFloat.ninf else PyFloat.inf)
    | PyFloat.finite _, PyFloat.inf => Except.ok (PyFloat.finite 0)
    | PyFloat.finite _, PyFloat.ninf => Except.ok (PyFloat.finite 0)

/-- The `ExecutionStyle` family from
`qf_lib/backtesting/order/execution_style.py`: a tagged variant type
with a payload only for the stop-price variant. Structural equality of
the derived `DecidableEq` matches the source's `__eq__` overrides
(`MarketOrder`/`MarketOnCloseOrder` equal any instance of the same
variant, `StopOrder` equality requires an exact stop-price match). -/
inductive ExecutionStyle where
  | marketOrder
  | marketOnCloseOrder
  | stopOrder (stop_price : ℚ)
deriving DecidableEq, Repr

/-- An order: contract (abstracted to a numeric identity), signed
quantity, and execution style. -/
structure Order where
  contract : ℕ
  quantity : ℤ
  style : ExecutionStyle
deriving DecidableEq, Repr

/-- Modelled from the spec: the `OrderFactory.orders` collaborator
contract (the factory itself is not under `src/`): for a
single-contract `mapping(contract -> signed quantity)` it returns
exactly one order carrying the requested signed quantity when a change
is required, and zero orders when the requested quantity is zero, i.e.
when no change is needed. -/
def spec_orders_factory (contract : ℕ) (quantity : ℤ) (style : ExecutionStyle) : List Order :=
  if quantity = 0 then [] else [⟨contract, quantity, style⟩]

/-- `InitialRiskPositionSizer._generate_market_order`
(`initial_risk_position_sizer.py`, lines 32-45). The order factory's
`target_percent_orders` is passed in as `target_percent_ordersFn`
(contract and target percentage to order list); `self._initial_risk`
and `signal.fraction_at_risk` are the two float parameters. -/
def _generate_market_order (initial_risk fraction_at_risk : PyFloat) (contract : ℕ)
    (target_percent_ordersFn : ℕ → PyFloat → List Order) : Except PyError (Option Order) := do
  pyAssert (is_finite_number initial_risk) "Initial risk has to be a finite number"
  pyAssert (is_finite_number fraction_at_risk) "fraction_at_risk has to be a finite number"
  let target_percentage ← pyDiv initial_risk fraction_at_risk
  pyAssert (is_finite_number target_percentage) "target_percentage has to be a finite number"
  match target_percent_ordersFn contract target_percentage with
  | [] => return none
  | [o] => return (some o)
  | _ :: _ :: _ => Except.error (PyError.assertionError "Only one order should be generated")

/-- `InitialRiskPositionSizer._generate_stop_order`
(`initial_risk_position_sizer.py`, lines 47-63). The stop price
computed by `_calculate_stop_price(signal)` and the existing position
quantity returned by `_get_existing_position_quantity(contract)` are
passed in as parameters, and the order factory's `orders` method as
`ordersFn` (contract, signed quantity and style to order list). -/
def _generate_stop_order (contract : ℕ) (stop_price : ℚ) (existing_position_quantity : ℤ)
    (market_order : Option Order) (ordersFn : ℕ → ℤ → ExecutionStyle → List Order) :
    Except PyError (Option Order) :=
  let stop_quantity := existing_position_quantity +
    (match market_order with
     | some mo => mo.quantity
     | none => 0)
  match ordersFn contract (-stop_quantity) (ExecutionStyle.stopOrder stop_price) with
  | [] => Except.ok none
  | [o] => Except.ok (some o)
  | _ :: _ :: _ => Except.error (PyError.assertionError "Only one order should be generated")

/-- A specific (concrete, tradable) ticker as found on broker positions:
either a plain instrument name or a dated contract of a futures family
(both abstracted to numeric identities). -/
inductive STicker where
  | plain (name : ℕ)
  | contract (family : ℕ) (contractId : ℕ)
deriving DecidableEq, Repr

/-- A ticker as carried by signals: a plain `Ticker`, or a
`FutureTicker` representing a family of specific contracts together
with the identity of its current specific contract. -/
inductive QTicker where
  | plain (name : ℕ)
  | future (family : ℕ) (currentContract : ℕ)
deriving DecidableEq, Repr

/-- Modelled from the spec: `FutureTicker.belongs_to_family` (not under
`src/`) answers the "does this specific contract belong to my family"
query; a plain specific ticker never belongs to a futures family, and a
plain signal ticker has no family. -/
def belongs_to_family : QTicker → STicker → Bool
  | QTicker.future fam _, STicker.contract fam2 _ => fam = fam2
  | _, _ => false

/-- Modelled from the spec: `FutureTicker.get_current_specific_ticker`
(not under `src/`) maps the abstract continuous-futures identity to its
one concrete, dated current contract. -/
def get_current_specific_ticker : QTicker → STicker
  | QTicker.plain n => STicker.plain n
  | QTicker.future fam cur => STicker.contract fam cur

/-- A broker position: specific ticker and signed quantity. -/
structure Position where
  ticker : STicker
  quantity : ℤ
deriving DecidableEq, Repr

/-- Modelled from the spec: the `Exposure` enumeration (not under
`src/`): directional stance LONG / SHORT / OUT. -/
inductive Exposure where
  | LONG
  | SHORT
  | OUT
deriving DecidableEq, Repr

/-- Modelled from the spec: `Exposure(np.sign(quantity))` — exposure is
derived from a signed quantity via the sign function: positive maps to
LONG, negative to SHORT, zero to OUT. -/
def Exposure.ofSign (q : ℤ) : Exposure :=
  if 0 < q then Exposure.LONG else if q < 0 then Exposure.SHORT else Exposure.OUT

/-- A signal: its producing model recommends `suggested_exposure` for
`ticker` with risk fraction `fraction_at_risk`. The `id` field models
Python object identity (two distinct signal objects in one cycle's list
have distinct ids even if equal-valued); suppression mutates the object
in place, which the embedding renders as a value update keyed by id. -/
structure Signal where
  id : ℕ
  ticker : QTicker
  suggested_exposure : Exposure
  fraction_at_risk : ℚ
deriving DecidableEq, Repr

/-- The dictionary-size-then-lookup used by `_get_current_exposure`:
Python's dict comprehension keeps the last value written for a
duplicated key, and `dict.get(key, 0)` returns 0 for a missing key. -/
def ticker_to_quantity_get (current_positions : List Position) (t : STicker) : ℤ :=
  match current_positions.reverse.find? (fun p => p.ticker = t) with
  | some p => p.quantity
  | none => 0

/-- The number of keys of the dict comprehension
`{position.ticker(): position.quantity() for position in current_positions}`:
the number of distinct tickers among the positions. -/
def ticker_to_quantity_size (current_positions : List Position) : ℕ :=
  ((current_positions.map Position.ticker).dedup).length

/-- `AlphaModelStrategy._get_current_exposure`
(`alpha_model_strategy.py`, lines 203-237). The assertion message of the
two-stranded-contracts branch is embedded without its dynamic list of
detected contracts. -/
def _get_current_exposure (ticker : QTicker) (current_positions : List Position) :
    Except PyError Exposure := do
  pyAssert (ticker_to_quantity_size current_positions = current_positions.length)
    "There should be max 1 position open per ticker"
  let current_ticker :=
    match ticker with
    | QTicker.future _ _ => get_current_specific_ticker ticker
    | QTicker.plain n => STicker.plain n
  let current_ticker_quantity := ticker_to_quantity_get current_positions current_ticker
  match ticker with
  | QTicker.future _ _ =>
      if current_ticker_quantity = 0 then
        let matching_positions :=
          current_positions.filter (fun p => belongs_to_family ticker p.ticker)
        if 1 < matching_positions.length then
          Except.error (PyError.assertionError
            "There should be no more then 1 position open for an already expired contract for a future ticker.")
        else
          match matching_positions with
          | [] => return Exposure.ofSign 0
          | p :: _ => return Exposure.ofSign p.quantity
      else
        return Exposure.ofSign current_ticker_quantity
  | QTicker.plain _ => return Exposure.ofSign current_ticker_quantity

/-- The Python `random` module as used by
`_adjust_number_of_open_positions`: `seedFn` models `random.seed(x)`
(mapping the seed value to an internal generator state, abstracted as a
natural number), `sampleFn` models the selection performed by
`random.sample(population, k)` from a given generator state. -/
structure PyRandomModel where
  seedFn : ℚ → ℕ
  sampleFn : ℕ → List Signal → ℕ → List Signal

/-- The documented contract of `random.sample(population, k)` when
`k ≤ len(population)`: it returns `k` elements chosen from the
population without replacement, i.e. a length-`k` sublist of some
permutation of the population. -/
def SamplerOK (sampleFn : ℕ → List Signal → ℕ → List Signal) : Prop :=
  ∀ st xs k, k ≤ xs.length →
    (sampleFn st xs k).length = k ∧ List.Subperm (sampleFn st xs k) xs

/-- `random.sample(population, k)`: raises `ValueError` when the sample
size exceeds the population size, otherwise defers to the generator. -/
def pySample (sampleFn : ℕ → List Signal → ℕ → List Signal) (st : ℕ)
    (population : List Signal) (k : ℕ) : Except PyError (List Signal) :=
  if k ≤ population.length then Except.ok (sampleFn st population k)
  else Except.error (PyError.valueError "Sample larger than population or is negative")

/-- Stable insertion used by `sorted_by_fraction_at_risk`: the new
element goes before the first existing element with a strictly larger
key, so equal keys keep their original relative order. -/
def insertByFar (s : Signal) : List Signal → List Signal
  | [] => [s]
  | t :: ts =>
      if s.fraction_at_risk ≤ t.fraction_at_risk then s :: t :: ts
      else t :: insertByFar s ts

/-- Python's `sorted(new_positions_signals, key=lambda s: s.fraction_at_risk)`:
the stable ascending sort by `fraction_at_risk`, rendered as a stable
insertion sort (extensionally equal to any stable sort by this key). -/
def sorted_by_fraction_at_risk : List Signal → List Signal
  | [] => []
  | s :: rest => insertByFar s (sorted_by_fraction_at_risk rest)

/-- The set comprehension `open_positions_specific_tickers`
(`alpha_model_strategy.py`, lines 126-128): the distinct specific
tickers of the broker's current positions. -/
def open_positions_specific_tickers (positions : List Position) : List STicker :=
  (positions.map Position.ticker).dedup

/-- `position_for_ticker_exists_in_portfolio`
(`alpha_model_strategy.py`, lines 130-138): a future ticker matches
when any open specific ticker belongs to its family, a plain ticker by
set membership. -/
def position_for_ticker_exists_in_portfolio (openTickers : List STicker) : QTicker → Bool
  | QTicker.future fam cur =>
      openTickers.any (fun t => belongs_to_family (QTicker.future fam cur) t)
  | QTicker.plain n => openTickers.contains (STicker.plain n)

/-- The predicate selecting `open_positions_signals`: signals whose
ticker already has a position open in the portfolio. -/
def is_open_position_signal (openTickers : List STicker) (s : Signal) : Bool :=
  position_for_ticker_exists_in_portfolio openTickers s.ticker

/-- The predicate selecting `new_positions_signals`: signals indicating
the opening of a new position — no open position for the ticker and a
suggested exposure other than OUT. -/
def is_new_position_signal (openTickers : List STicker) (s : Signal) : Bool :=
  !position_for_ticker_exists_in_portfolio openTickers s.ticker &&
    !decide (s.suggested_exposure = Exposure.OUT)

/-- `open_positions_signals` (`alpha_model_strategy.py`, line 141). -/
def open_positions_signals (positions : List Position) (signals : List Signal) : List Signal :=
  signals.filter (is_open_position_signal (open_positions_specific_tickers positions))

/-- `new_positions_signals` (`alpha_model_strategy.py`, lines 144-145). -/
def new_positions_signals (positions : List Position) (signals : List Signal) : List Signal :=
  signals.filter (is_new_position_signal (open_positions_specific_tickers positions))

/-- `number_of_positions_to_be_open` (`alpha_model_strategy.py`, line 147). -/
def number_of_positions_to_be_open (positions : List Position) (signals : List Signal) : ℕ :=
  (new_positions_signals positions signals).length +
    (open_positions_signals positions signals).length

/-- The suppression loop (`alpha_model_strategy.py`, lines 161-162):
each signal object contained in `signals_to_change` gets its suggested
exposure forcibly set to OUT, in place; object identity is modelled by
the `id` field. -/
def suppressByIds (ids : List ℕ) (s : Signal) : Signal :=
  if s.id ∈ ids then { s with suggested_exposure := Exposure.OUT } else s

/-- `AlphaModelStrategy._adjust_number_of_open_positions`
(`alpha_model_strategy.py`, lines 112-164). `r` is the Python `random`
module, `rng_state` the generator state on entry (immediately
overwritten by `random.seed(self.timer.now().timestamp())`, whose seed
argument is the `now` parameter), `positions` the broker's positions
and `max_open_positions` the configured maximum. The returned list is
the mutated `signals` list (the source also returns it). -/
def _adjust_number_of_open_positions (r : PyRandomModel) (_rng_state : ℕ)
    (positions : List Position) (max_open_positions : ℕ) (now : ℚ)
    (signals : List Signal) : Except PyError (List Signal) :=
  if max_open_positions < number_of_positions_to_be_open positions signals then
    match pySample r.sampleFn (r.seedFn now)
        (sorted_by_fraction_at_risk (new_positions_signals positions signals))
        (number_of_positions_to_be_open positions signals - max_open_positions) with
    | Except.error e => Except.error e
    | Except.ok signals_to_change =>
        Except.ok (signals.map (suppressByIds (signals_to_change.map Signal.id)))
  else Except.ok signals

/-- A call the strategy makes on its broker. -/
inductive BrokerCall where
  | cancelAllOpenOrders
  | placeOrders (orders : List Order)
deriving DecidableEq, Repr

/-- The filter loop of `_place_orders` (`alpha_model_strategy.py`,
lines 190-195): each configured orders filter is applied in turn, but
only while the order list is non-empty. -/
def applyOrdersFilters (filters : List (List Order → List Order)) (orders : List Order) :
    List Order :=
  filters.foldl (fun os f => if os.isEmpty then os else f os) orders

/-- `AlphaModelStrategy._place_orders` (`alpha_model_strategy.py`,
lines 181-201), abstracted over its collaborators: `sized_orders` is
what `position_sizer.size_signals` returned, `close_orders` what
`futures_rolling_orders_generator.generate_close_orders` returned, and
`filters` the configured orders filters. The result is the sequence of
broker calls the method performs. -/
def _place_orders (sized_orders close_orders : List Order)
    (filters : List (List Order → List Order)) : List BrokerCall :=
  let orders := sized_orders ++ close_orders
  let orders := applyOrdersFilters filters orders
  [BrokerCall.cancelAllOpenOrders, BrokerCall.placeOrders orders]

/-- A sampler that picks the first k candidates; it satisfies the documented
contract of `random.sample` and is used to instantiate the abstract random
model on concrete runs. -/
def takeSampler : ℕ → List Signal → ℕ → List Signal := fun _ xs k => xs.take k

/-- A random model whose sampler is `takeSampler`. -/
def rTake : PyRandomModel := ⟨fun _ => 0, takeSampler⟩

/-- A concrete signal with integer fraction at risk, for concrete runs. -/
def sigA : Signal := ⟨1, QTicker.plain 1, Exposure.LONG, 5⟩

/-- A concrete signal with integer fraction at risk, for concrete runs. -/
def sigB : Signal := ⟨2, QTicker.plain 2, Exposure.LONG, 1⟩

/-- The claim's scenario signal with fraction_at_risk 0.01. -/
def sig01 : Signal := ⟨1, QTicker.plain 1, Exposure.LONG, 1/100⟩

/-- The claim's scenario signal with fraction_at_risk 0.05. -/
def sig05 : Signal := ⟨2, QTicker.plain 2, Exposure.LONG, 1/20⟩

/-- A sampler that picks the last k candidates; like any selection of k
distinct elements it satisfies the documented contract of `random.sample`. -/
def revSampler : ℕ → List Signal → ℕ → List Signal := fun _ xs k => xs.reverse.take k

/-- A random model whose sampler is `revSampler`. -/
def rRev : PyRandomModel := ⟨fun _ => 0, revSampler⟩

example : _generate_market_order (PyFloat.finite 2) (PyFloat.finite 4) 0
    (fun c _ => [⟨c, 7, ExecutionStyle.marketOrder⟩]) =
    Except.ok (some ⟨0, 7, ExecutionStyle.marketOrder⟩) := by decide

example : _generate_market_order (PyFloat.finite 1) (PyFloat.finite 0) 0
    (fun _ _ => []) = Except.error PyError.zeroDivisionError := by decide

example : _generate_market_order PyFloat.nan (PyFloat.finite 1) 0 (fun _ _ => []) =
    Except.error (PyError.assertionError "Initial risk has to be a finite number") := by decide

example : _generate_stop_order 3 10 5 (some ⟨3, 7, ExecutionStyle.marketOrder⟩)
    spec_orders_factory =
    Except.ok (some ⟨3, -12, ExecutionStyle.stopOrder 10⟩) := by decide

example : _generate_stop_order 3 10 5 (some ⟨3, -5, ExecutionStyle.marketOrder⟩)
    spec_orders_factory = Except.ok none := by decide

/-- Reduction of `_generate_market_order` for finite inputs with a non-zero
fraction at risk: the whole computation is the post-processing of the order
factory applied at exactly the quotient of the two inputs. -/
lemma generate_market_order_finite (a b : ℚ) (hb : b ≠ 0) (c : ℕ)
    (f : ℕ → PyFloat → List Order) :
    _generate_market_order (PyFloat.finite a) (PyFloat.finite b) c f =
      match f c (PyFloat.finite (a / b)) with
      | [] => Except.ok none
      | [o] => Except.ok (some o)
      | _ :: _ :: _ =>
          Except.error (PyError.assertionError "Only one order should be generated") := by
  have hdiv : pyDiv (PyFloat.finite a) (PyFloat.finite b) =
      Except.ok (PyFloat.finite (a / b)) := by
    unfold pyDiv
    rw [if_neg (by simp [hb])]
  unfold _generate_market_order
  rw [hdiv]
  rfl

example : _get_current_exposure (QTicker.plain 7) [⟨STicker.plain 7, -3⟩] =
    Except.ok Exposure.SHORT := by decide

example : _get_current_exposure (QTicker.future 0 2) [⟨STicker.contract 0 1, 5⟩] =
    Except.ok Exposure.LONG := by decide

example : _get_current_exposure (QTicker.future 0 2)
    [⟨STicker.contract 0 1, 5⟩, ⟨STicker.contract 0 3, 2⟩] =
    Except.error (PyError.assertionError
      "There should be no more then 1 position open for an already expired contract for a future ticker.") := by decide

example : _get_current_exposure (QTicker.future 0 2)
    [⟨STicker.contract 0 2, 3⟩, ⟨STicker.contract 0 1, 5⟩] =
    Except.ok Exposure.LONG := by decide

example : _get_current_exposure (QTicker.future 0 2) [⟨STicker.plain 9, 4⟩] =
    Except.ok Exposure.OUT := by decide

example : _get_current_exposure (QTicker.plain 7)
    [⟨STicker.plain 7, -3⟩, ⟨STicker.plain 7, 2⟩] =
    Except.error (PyError.assertionError "There should be max 1 position open per ticker") := by decide

lemma insertByFar_perm (s : Signal) (l : List Signal) :
    List.Perm (insertByFar s l) (s :: l) := by
  induction l with
  | nil => exact List.Perm.refl _
  | cons t ts ih =>
    unfold insertByFar
    by_cases h : s.fraction_at_risk ≤ t.fraction_at_risk
    · simp only [h, if_true]
      exact List.Perm.refl _
    · simp only [h, if_false]
      exact List.Perm.trans (ih.cons t) (List.Perm.swap s t ts)

lemma sorted_by_fraction_at_risk_perm (l : List Signal) :
    List.Perm (sorted_by_fraction_at_risk l) l := by
  induction l with
  | nil => exact List.Perm.refl _
  | cons s rest ih =>
    exact List.Perm.trans (insertByFar_perm s (sorted_by_fraction_at_risk rest)) (ih.cons s)

lemma subperm_map_signal {l₁ l₂ : List Signal} (f : Signal → ℕ) (h : l₁.Subperm l₂) :
    (l₁.map f).Subperm (l₂.map f) := by
  obtain ⟨t, hp, hs⟩ := h
  exact ⟨t.map f, hp.map f, hs.map f⟩

lemma subperm_nodup {α : Type} {l₁ l₂ : List α} (h : l₁.Subperm l₂) (hn : l₂.Nodup) :
    l₁.Nodup := by
  obtain ⟨t, hp, hs⟩ := h
  exact hp.nodup (hs.nodup hn)

lemma countP_and_split {α : Type} (p q : α → Bool) (l : List α) :
    l.countP (fun a => p a && q a) + l.countP (fun a => p a && !q a) = l.countP p := by
  induction l with
  | nil => simp
  | cons a t ih =>
    by_cases hp : p a <;> by_cases hq : q a <;>
      simp [List.countP_cons, hp, hq] <;> omega

lemma countP_mem_of_nodup (l : List Signal) (S : List ℕ)
    (hl : (l.map Signal.id).Nodup) (hS : S.Nodup)
    (hsub : ∀ x ∈ S, x ∈ l.map Signal.id) :
    l.countP (fun s => decide (s.id ∈ S)) = S.length := by
  induction l generalizing S with
  | nil =>
    have hSnil : S = [] := by
      cases S with
      | nil => rfl
      | cons x xs => exact absurd (hsub x (by simp)) (by simp)
    simp [hSnil]
  | cons a t ih =>
    simp only [List.map_cons, List.nodup_cons] at hl
    obtain ⟨ha, ht⟩ := hl
    by_cases hmem : a.id ∈ S
    · have hlen : 1 ≤ S.length := List.length_pos.mpr (by rintro rfl; simp at hmem)
      have herase : (S.erase a.id).length = S.length - 1 := List.length_erase_of_mem hmem
      have hcount : t.countP (fun s => decide (s.id ∈ S)) =
          t.countP (fun s => decide (s.id ∈ S.erase a.id)) := by
        apply List.countP_congr
        intro s hs
        have hne : s.id ≠ a.id := by
          intro h
          exact ha (h ▸ List.mem_map_of_mem Signal.id hs)
        simp [List.Nodup.mem_erase_iff hS, hne]
      have hsub2 : ∀ x ∈ S.erase a.id, x ∈ t.map Signal.id := by
        intro x hx
        obtain ⟨hxne, hxS⟩ := (List.Nodup.mem_erase_iff hS).mp hx
        have := hsub x hxS
        simp only [List.map_cons, List.mem_cons] at this
        exact this.resolve_left hxne
      rw [List.countP_cons, hcount, ih (S.erase a.id) ht (hS.erase a.id) hsub2]
      simp only [hmem, decide_eq_true_eq, if_pos]
      omega
    · have hsub2 : ∀ x ∈ S, x ∈ t.map Signal.id := by
        intro x hx
        have := hsub x hx
        simp only [List.map_cons, List.mem_cons] at this
        rcases this with h1 | h2
        · exact absurd (h1 ▸ hx) hmem
        · exact h2
      rw [List.countP_cons, ih S ht hS hsub2]
      simp [hmem]

lemma forall₂_map_self {P : Signal → Signal → Prop} (g : Signal → Signal) (l : List Signal)
    (h : ∀ s ∈ l, P s (g s)) : List.Forall₂ P l (l.map g) := by
  induction l with
  | nil => simp
  | cons a t ih =>
    exact List.Forall₂.cons (h a (List.mem_cons_self a t))
      (ih fun s hs => h s (List.mem_cons_of_mem a hs))

lemma adjust_ok_elim {r : PyRandomModel} {σ : ℕ} {positions : List Position}
    {maxOpen : ℕ} {now : ℚ} {signals out : List Signal}
    (h : _adjust_number_of_open_positions r σ positions maxOpen now signals = Except.ok out) :
    (¬ maxOpen < number_of_positions_to_be_open positions signals ∧ out = signals) ∨
    (maxOpen < number_of_positions_to_be_open positions signals ∧
     number_of_positions_to_be_open positions signals - maxOpen ≤
       (sorted_by_fraction_at_risk (new_positions_signals positions signals)).length ∧
     out = signals.map (suppressByIds
       ((r.sampleFn (r.seedFn now)
          (sorted_by_fraction_at_risk (new_positions_signals positions signals))
          (number_of_positions_to_be_open positions signals - maxOpen)).map Signal.id))) := by
  unfold _adjust_number_of_open_positions pySample at h
  split at h
  · split at h
    · exact absurd h (by simp)
    · rename_i sc heq
      split at heq
      · right
        obtain rfl := Except.ok.inj heq
        exact ⟨by assumption, by assumption, (Except.ok.inj h).symm⟩
      · exact absurd heq (by simp)
  · left
    exact ⟨by assumption, (Except.ok.inj h).symm⟩

lemma countP_ticker_pred_suppress (p : Signal → Bool)
    (hp : ∀ s ids, p (suppressByIds ids s) = p s)
    (ids : List ℕ) (signals : List Signal) :
    (signals.map (suppressByIds ids)).countP p = signals.countP p := by
  rw [List.countP_map]
  exact List.countP_congr fun s _ => by simp [Function.comp, hp s ids]

lemma is_open_suppress (OT : List STicker) (s : Signal) (ids : List ℕ) :
    is_open_position_signal OT (suppressByIds ids s) = is_open_position_signal OT s := by
  unfold is_open_position_signal suppressByIds
  by_cases h : s.id ∈ ids <;> simp [h]

lemma is_new_suppress (OT : List STicker) (s : Signal) (ids : List ℕ) :
    is_new_position_signal OT (suppressByIds ids s) =
      (is_new_position_signal OT s && !decide (s.id ∈ ids)) := by
  unfold is_new_position_signal suppressByIds
  by_cases h : s.id ∈ ids <;> simp [h]

lemma suppressed_id_is_new {positions : List Position} {signals : List Signal}
    (hnd : (signals.map Signal.id).Nodup)
    {toChange : List Signal}
    (hsp : toChange.Subperm (sorted_by_fraction_at_risk (new_positions_signals positions signals)))
    {s : Signal} (hs : s ∈ signals) (hid : s.id ∈ toChange.map Signal.id) :
    is_new_position_signal (open_positions_specific_tickers positions) s = true := by
  obtain ⟨t, ht, hteq⟩ := List.mem_map.mp hid
  have h1 : t ∈ new_positions_signals positions signals :=
    ((sorted_by_fraction_at_risk_perm _).mem_iff).mp (hsp.subset ht)
  have h3 := List.mem_filter.mp h1
  have heq := List.inj_on_of_nodup_map hnd h3.1 hs hteq
  exact heq ▸ h3.2

lemma subperm_new_of_subperm_sorted {positions : List Position} {signals : List Signal}
    {toChange : List Signal}
    (hsp : toChange.Subperm (sorted_by_fraction_at_risk (new_positions_signals positions signals))) :
    toChange.Subperm (new_positions_signals positions signals) :=
  hsp.trans (sorted_by_fraction_at_risk_perm _).subperm

lemma countP_new_ids {positions : List Position} {signals : List Signal}
    (hnd : (signals.map Signal.id).Nodup)
    {toChange : List Signal}
    (hsp : toChange.Subperm (sorted_by_fraction_at_risk (new_positions_signals positions signals))) :
    signals.countP (fun s =>
        is_new_position_signal (open_positions_specific_tickers positions) s &&
          decide (s.id ∈ toChange.map Signal.id)) = toChange.length := by
  have hsp2 := subperm_new_of_subperm_sorted hsp
  have step1 : signals.countP (fun s =>
      is_new_position_signal (open_positions_specific_tickers positions) s &&
        decide (s.id ∈ toChange.map Signal.id)) =
      (new_positions_signals positions signals).countP
        (fun s => decide (s.id ∈ toChange.map Signal.id)) := by
    unfold new_positions_signals
    rw [List.countP_filter]
    exact List.countP_congr fun s _ => by simp [Bool.and_comm]
  have hnodupNew : ((new_positions_signals positions signals).map Signal.id).Nodup :=
    ((List.filter_sublist signals).map Signal.id).nodup hnd
  have hSnodup : (toChange.map Signal.id).Nodup :=
    subperm_nodup (subperm_map_signal Signal.id hsp2) hnodupNew
  have hSsub : ∀ x ∈ toChange.map Signal.id,
      x ∈ (new_positions_signals positions signals).map Signal.id :=
    fun x hx => (subperm_map_signal Signal.id hsp2).subset hx
  rw [step1, countP_mem_of_nodup _ _ hnodupNew hSnodup hSsub, List.length_map]

lemma number_after_suppress {positions : List Position} {signals : List Signal}
    (hnd : (signals.map Signal.id).Nodup)
    {toChange : List Signal}
    (hsp : toChange.Subperm (sorted_by_fraction_at_risk (new_positions_signals positions signals))) :
    number_of_positions_to_be_open positions
        (signals.map (suppressByIds (toChange.map Signal.id))) =
      number_of_positions_to_be_open positions signals - toChange.length := by
  have hk : toChange.length ≤ (new_positions_signals positions signals).length := by
    have := hsp.length_le
    rwa [(sorted_by_fraction_at_risk_perm _).length_eq] at this
  have hopen : (signals.map (suppressByIds (toChange.map Signal.id))).countP
      (is_open_position_signal (open_positions_specific_tickers positions)) =
      signals.countP (is_open_position_signal (open_positions_specific_tickers positions)) :=
    countP_ticker_pred_suppress _ (fun s ids => is_open_suppress _ s ids) _ _
  have hnewmap : (signals.map (suppressByIds (toChange.map Signal.id))).countP
      (is_new_position_signal (open_positions_specific_tickers positions)) =
      signals.countP (fun s =>
        is_new_position_signal (open_positions_specific_tickers positions) s &&
          !decide (s.id ∈ toChange.map Signal.id)) := by
    rw [List.countP_map]
    exact List.countP_congr fun s _ => by
      simp [Function.comp, is_new_suppress]
  have hsplit := countP_and_split
    (is_new_position_signal (open_positions_specific_tickers positions))
    (fun s => decide (s.id ∈ toChange.map Signal.id)) signals
  have hids := countP_new_ids hnd hsp
  unfold number_of_positions_to_be_open open_positions_signals new_positions_signals
  rw [← List.countP_eq_length_filter, ← List.countP_eq_length_filter,
    ← List.countP_eq_length_filter, ← List.countP_eq_length_filter]
  unfold new_positions_signals at hk
  rw [hopen, hnewmap]
  rw [← List.countP_eq_length_filter] at hk
  omega

lemma applyOrdersFilters_nil (filters : List (List Order → List Order)) :
    applyOrdersFilters filters [] = [] := by
  induction filters with
  | nil => rfl
  | cons f fs ih =>
    unfold applyOrdersFilters at ih ⊢
    simpa using ih

/-- Claim C1: for every contract, stop price, existing position quantity and
optional market order, the stop order generated by
`InitialRiskPositionSizer._generate_stop_order` (through the order factory's
documented single-contract contract) requests a quantity equal to the
negative of the existing position quantity plus the market order's quantity
when a market order was generated, or of the existing quantity alone when it
was not: if triggered it exactly flattens the resulting position, no order at
all being issued when the resulting position is already flat, so its
magnitude never exceeds the quantity needed to flatten the position. -/
theorem stop_order_fully_unwinds_resulting_position :
    ∀ (contract : ℕ) (stop_price : ℚ) (existing : ℤ) (market_order : Option Order),
      _generate_stop_order contract stop_price existing market_order spec_orders_factory =
        (if existing + market_order.elim 0 Order.quantity = 0 then Except.ok none
         else Except.ok (some ⟨contract, -(existing + market_order.elim 0 Order.quantity),
            ExecutionStyle.stopOrder stop_price⟩)) := by
  intro c sp ex mo
  cases mo with
  | none =>
    unfold _generate_stop_order spec_orders_factory
    simp only [Option.elim]
    by_cases h : ex + 0 = 0
    · rw [if_pos (by omega : -(ex + 0) = 0), if_pos h]
    · rw [if_neg (by omega : ¬ -(ex + 0) = 0), if_neg h]
  | some o =>
    unfold _generate_stop_order spec_orders_factory
    simp only [Option.elim]
    by_cases h : ex + o.quantity = 0
    · rw [if_pos (by omega : -(ex + o.quantity) = 0), if_pos h]
    · rw [if_neg (by omega : ¬ -(ex + o.quantity) = 0), if_neg h]

/-- Claim C6: every cycle that reaches submission makes exactly one
`cancel_all_open_orders` broker call followed by exactly one `place_orders`
call, and `place_orders` is called even when the generated order list is
empty: with no sized orders and no rolling close orders the empty list is
still submitted. -/
theorem cancel_all_then_place_orders_once :
    (∀ (sized_orders close_orders : List Order) (filters : List (List Order → List Order)),
      ∃ os, _place_orders sized_orders close_orders filters =
        [BrokerCall.cancelAllOpenOrders, BrokerCall.placeOrders os]) ∧
    (∀ filters : List (List Order → List Order),
      _place_orders [] [] filters =
        [BrokerCall.cancelAllOpenOrders, BrokerCall.placeOrders []]) := by
  constructor
  · intro so co fs
    exact ⟨applyOrdersFilters fs (so ++ co), rfl⟩
  · intro fs
    show [BrokerCall.cancelAllOpenOrders,
        BrokerCall.placeOrders (applyOrdersFilters fs ([] ++ []))] =
      [BrokerCall.cancelAllOpenOrders, BrokerCall.placeOrders []]
    rw [List.nil_append, applyOrdersFilters_nil]

/-- Claim C7 counterexample: an order-factory call returning zero orders for
a single-contract sizing request is not treated as fatal: with a factory
returning the empty list, `_generate_market_order` returns no order and
raises nothing, and likewise `_generate_stop_order`. -/
theorem factory_zero_orders_returns_none :
    _generate_market_order (PyFloat.finite 2) (PyFloat.finite 4) 0 (fun _ _ => []) =
        Except.ok none ∧
      _generate_stop_order 0 10 5 none (fun _ _ _ => []) = Except.ok none := by
  exact ⟨by decide, by decide⟩

/-- Claim C7 amended: for a single-contract sizing request, an order-factory
call returning more than one order is a fatal programming-invariant violation
(an AssertionError is raised, in `_generate_market_order` and in
`_generate_stop_order` alike), while a call returning zero orders is handled
gracefully: the sizer returns no order and no error, and the signal is
skipped. -/
theorem factory_cardinality_policy :
    ∀ (lst : List Order) (c : ℕ) (a b sp : ℚ) (ex : ℤ) (mo : Option Order),
      b ≠ 0 →
      (2 ≤ lst.length →
        _generate_market_order (PyFloat.finite a) (PyFloat.finite b) c (fun _ _ => lst) =
            Except.error (PyError.assertionError "Only one order should be generated") ∧
          _generate_stop_order c sp ex mo (fun _ _ _ => lst) =
            Except.error (PyError.assertionError "Only one order should be generated")) ∧
      (lst = [] →
        _generate_market_order (PyFloat.finite a) (PyFloat.finite b) c (fun _ _ => lst) =
            Except.ok none ∧
          _generate_stop_order c sp ex mo (fun _ _ _ => lst) = Except.ok none) := by
  intro lst c a b sp ex mo hb
  constructor
  · intro hlen
    match lst, hlen with
    | o1 :: o2 :: rest, _ =>
      constructor
      · rw [generate_market_order_finite a b hb c]
      · unfold _generate_stop_order
        rfl
  · rintro rfl
    constructor
    · rw [generate_market_order_finite a b hb c]
    · unfold _generate_stop_order
      rfl

theorem factory_cardinality_policy_witness :
    ((4 : ℚ) ≠ 0) ∧
      (2 ≤ ([⟨0, 1, ExecutionStyle.marketOrder⟩, ⟨0, 2, ExecutionStyle.marketOrder⟩] :
          List Order).length →
        _generate_market_order (PyFloat.finite 2) (PyFloat.finite 4) 0
            (fun _ _ => [⟨0, 1, ExecutionStyle.marketOrder⟩, ⟨0, 2, ExecutionStyle.marketOrder⟩]) =
            Except.error (PyError.assertionError "Only one order should be generated") ∧
          _generate_stop_order 0 10 5 none
            (fun _ _ _ => [⟨0, 1, ExecutionStyle.marketOrder⟩, ⟨0, 2, ExecutionStyle.marketOrder⟩]) =
            Except.error (PyError.assertionError "Only one order should be generated")) ∧
      (([⟨0, 1, ExecutionStyle.marketOrder⟩, ⟨0, 2, ExecutionStyle.marketOrder⟩] :
          List Order) = [] →
        _generate_market_order (PyFloat.finite 2) (PyFloat.finite 4) 0
            (fun _ _ => [⟨0, 1, ExecutionStyle.marketOrder⟩, ⟨0, 2, ExecutionStyle.marketOrder⟩]) =
            Except.ok none ∧
          _generate_stop_order 0 10 5 none
            (fun _ _ _ => [⟨0, 1, ExecutionStyle.marketOrder⟩, ⟨0, 2, ExecutionStyle.marketOrder⟩]) =
            Except.ok none) :=
  ⟨by decide,
    factory_cardinality_policy [⟨0, 1, ExecutionStyle.marketOrder⟩,
      ⟨0, 2, ExecutionStyle.marketOrder⟩] 0 2 4 10 5 none (by decide)⟩

/-- Claim C9: for every finite initial_risk and finite non-zero
fraction_at_risk, the target percentage handed to the order factory equals
exactly initial_risk / fraction_at_risk (`_generate_market_order` is the
factory's post-processing applied at exactly that quotient), and in
particular 0.02 divided by 0.04 is exactly 0.5. -/
theorem target_percentage_exact_quotient :
    ∀ (a b : ℚ) (c : ℕ) (f : ℕ → PyFloat → List Order), b ≠ 0 →
      (_generate_market_order (PyFloat.finite a) (PyFloat.finite b) c f =
        match f c (PyFloat.finite (a / b)) with
        | [] => Except.ok none
        | [o] => Except.ok (some o)
        | _ :: _ :: _ =>
            Except.error (PyError.assertionError "Only one order should be generated")) ∧
      pyDiv (PyFloat.finite (2/100)) (PyFloat.finite (4/100)) =
        Except.ok (PyFloat.finite (1/2)) := by
  intro a b c f hb
  refine ⟨generate_market_order_finite a b hb c f, ?_⟩
  unfold pyDiv
  rw [if_neg (by simp only [PyFloat.finite.injEq]; norm_num)]
  have hq : (2/100 : ℚ) / (4/100) = 1/2 := by norm_num
  show Except.ok (PyFloat.finite ((2/100 : ℚ) / (4/100))) = Except.ok (PyFloat.finite (1/2))
  rw [hq]

theorem target_percentage_exact_quotient_witness :
    ((4 : ℚ) ≠ 0) ∧
      ((_generate_market_order (PyFloat.finite 2) (PyFloat.finite 4) 0 (fun _ _ => []) =
        match (fun (_ : ℕ) (_ : PyFloat) => ([] : List Order)) 0 (PyFloat.finite (2 / 4)) with
        | [] => Except.ok none
        | [o] => Except.ok (some o)
        | _ :: _ :: _ =>
            Except.error (PyError.assertionError "Only one order should be generated")) ∧
      pyDiv (PyFloat.finite (2/100)) (PyFloat.finite (4/100)) =
        Except.ok (PyFloat.finite (1/2))) :=
  ⟨by decide, target_percentage_exact_quotient 2 4 0 (fun _ _ => []) (by decide)⟩

/-- Claim C10: for finite non-zero initial_risk and fraction_at_risk exactly
0.0, the two input finiteness assertions pass (0.0 is a finite number) and
the division then raises ZeroDivisionError before the quotient-finiteness
assertion runs: no order is returned, and the failure is the unguarded
arithmetic error, not the precondition assertion path. -/
theorem zero_fraction_at_risk_raises_zero_division :
    ∀ (a : ℚ) (c : ℕ) (f : ℕ → PyFloat → List Order), a ≠ 0 →
      is_finite_number (PyFloat.finite 0) = true ∧
      _generate_market_order (PyFloat.finite a) (PyFloat.finite 0) c f =
        Except.error PyError.zeroDivisionError := by
  intro a c f _
  exact ⟨rfl, rfl⟩

theorem zero_fraction_at_risk_raises_zero_division_witness :
    ((1 : ℚ) ≠ 0) ∧
      (is_finite_number (PyFloat.finite 0) = true ∧
        _generate_market_order (PyFloat.finite 1) (PyFloat.finite 0) 0 (fun _ _ => []) =
          Except.error PyError.zeroDivisionError) :=
  ⟨by decide, zero_fraction_at_risk_raises_zero_division 1 0 (fun _ _ => []) (by decide)⟩

/-- Claim C4: whenever initial_risk or fraction_at_risk is NaN or infinite,
or the quotient initial_risk / fraction_at_risk does not evaluate to a finite
value, `_generate_market_order` fails with an error that does not depend on
the order factory: no order is ever returned and the factory is never
reached. For non-finite inputs the error is the precondition AssertionError;
for a zero divisor it is the ZeroDivisionError raised by the division. -/
theorem nonfinite_risk_inputs_never_return_order :
    ∀ (ir far : PyFloat) (c : ℕ),
      (is_finite_number ir = false ∨ is_finite_number far = false ∨
        ∀ q : ℚ, pyDiv ir far ≠ Except.ok (PyFloat.finite q)) →
      ∃ e, ∀ f : ℕ → PyFloat → List Order,
        _generate_market_order ir far c f = Except.error e := by
  intro ir far c hyp
  by_cases hir : is_finite_number ir
  · by_cases hfar : is_finite_number far
    · obtain ⟨x, rfl⟩ : ∃ x, ir = PyFloat.finite x := by
        cases ir with
        | finite x => exact ⟨x, rfl⟩
        | nan => exact absurd hir (by decide)
        | inf => exact absurd hir (by decide)
        | ninf => exact absurd hir (by decide)
      obtain ⟨y, rfl⟩ : ∃ y, far = PyFloat.finite y := by
        cases far with
        | finite y => exact ⟨y, rfl⟩
        | nan => exact absurd hfar (by decide)
        | inf => exact absurd hfar (by decide)
        | ninf => exact absurd hfar (by decide)
      by_cases hy : y = 0
      · subst hy
        exact ⟨PyError.zeroDivisionError, fun f => rfl⟩
      · exfalso
        have hdiv : pyDiv (PyFloat.finite x) (PyFloat.finite y) =
            Except.ok (PyFloat.finite (x / y)) := by
          unfold pyDiv
          rw [if_neg (by simp [hy])]
        rcases hyp with h | h | h
        · simp [is_finite_number] at h
        · simp [is_finite_number] at h
        · exact h (x / y) hdiv
    · refine ⟨PyError.assertionError "fraction_at_risk has to be a finite number", fun f => ?_⟩
      unfold _generate_market_order pyAssert
      rw [Bool.not_eq_true] at hfar
      rw [hir, hfar]
      rfl
  · refine ⟨PyError.assertionError "Initial risk has to be a finite number", fun f => ?_⟩
    unfold _generate_market_order pyAssert
    rw [Bool.not_eq_true] at hir
    rw [hir]
    rfl

theorem nonfinite_risk_inputs_never_return_order_witness :
    (is_finite_number PyFloat.nan = false ∨ is_finite_number (PyFloat.finite 1) = false ∨
        ∀ q : ℚ, pyDiv PyFloat.nan (PyFloat.finite 1) ≠ Except.ok (PyFloat.finite q)) ∧
      ∃ e, ∀ f : ℕ → PyFloat → List Order,
        _generate_market_order PyFloat.nan (PyFloat.finite 1) 0 f = Except.error e :=
  ⟨Or.inl (by decide),
    nonfinite_risk_inputs_never_return_order PyFloat.nan (PyFloat.finite 1) 0 (Or.inl (by decide))⟩

lemma pyAssert_true {c : Bool} (h : c = true) (msg : String) :
    pyAssert c msg = Except.ok () := by
  simp [pyAssert, h]

/-- Claim C5 counterexample: with two simultaneous positions on two specific
contracts of family 0 (the current contract 2 with quantity 3, and the old
contract 1 with quantity 5), `_get_current_exposure` does not raise any fatal
invariant error: the current contract's non-zero quantity short-circuits the
family scan and the exposure is LONG. -/
theorem two_family_positions_with_current_not_fatal :
    _get_current_exposure (QTicker.future 0 2)
      [⟨STicker.contract 0 2, 3⟩, ⟨STicker.contract 0 1, 5⟩] =
      Except.ok Exposure.LONG := by decide

/-- Claim C5 amended: for a future-ticker family, `_get_current_exposure`
first uses the current specific contract's quantity; only when that quantity
is zero does it scan the snapshot for positions whose ticker belongs to the
same family: more than one match raises the fatal invariant AssertionError,
exactly one match yields the sign-derived exposure of that (old) contract's
quantity, and no match yields OUT. In particular, two simultaneous positions
on two specific contracts of the family raise the fatal error only when the
current specific contract's quantity is zero (e.g. both positions are on old
contracts); when one of them is the current contract with non-zero quantity,
the current contract alone decides the exposure. -/
theorem future_ticker_exposure_fallback :
    ∀ (fam cur : ℕ) (ps : List Position),
      ticker_to_quantity_size ps = ps.length →
      (ticker_to_quantity_get ps (STicker.contract fam cur) ≠ 0 →
        _get_current_exposure (QTicker.future fam cur) ps =
          Except.ok (Exposure.ofSign (ticker_to_quantity_get ps (STicker.contract fam cur)))) ∧
      (ticker_to_quantity_get ps (STicker.contract fam cur) = 0 →
        (1 < (ps.filter (fun p => belongs_to_family (QTicker.future fam cur) p.ticker)).length →
          _get_current_exposure (QTicker.future fam cur) ps =
            Except.error (PyError.assertionError
              "There should be no more then 1 position open for an already expired contract for a future ticker.")) ∧
        (∀ p, ps.filter (fun p => belongs_to_family (QTicker.future fam cur) p.ticker) = [p] →
          _get_current_exposure (QTicker.future fam cur) ps =
            Except.ok (Exposure.ofSign p.quantity)) ∧
        (ps.filter (fun p => belongs_to_family (QTicker.future fam cur) p.ticker) = [] →
          _get_current_exposure (QTicker.future fam cur) ps = Except.ok Exposure.OUT)) := by
  intro fam cur ps hsize
  have hmain : _get_current_exposure (QTicker.future fam cur) ps =
      (if ticker_to_quantity_get ps (STicker.contract fam cur) = 0 then
        (if 1 < (ps.filter (fun p => belongs_to_family (QTicker.future fam cur) p.ticker)).length
         then
           Except.error (PyError.assertionError
             "There should be no more then 1 position open for an already expired contract for a future ticker.")
         else
           match ps.filter (fun p => belongs_to_family (QTicker.future fam cur) p.ticker) with
           | [] => Except.ok (Exposure.ofSign 0)
           | p :: _ => Except.ok (Exposure.ofSign p.quantity))
      else Except.ok (Exposure.ofSign (ticker_to_quantity_get ps (STicker.contract fam cur)))) := by
    unfold _get_current_exposure
    rw [pyAssert_true (by simp [hsize]) _]
    rfl
  refine ⟨fun hne => ?_, fun hq0 => ⟨fun hlen => ?_, fun p hp => ?_, fun hp => ?_⟩⟩
  · rw [hmain, if_neg hne]
  · rw [hmain, if_pos hq0, if_pos hlen]
  · rw [hmain, if_pos hq0, hp]
    rw [if_neg (by simp)]
  · rw [hmain, if_pos hq0, hp]
    rw [if_neg (by simp)]
    show Except.ok (Exposure.ofSign 0) = Except.ok Exposure.OUT
    rfl

theorem future_ticker_exposure_fallback_witness :
    (ticker_to_quantity_size [(⟨STicker.contract 0 1, 5⟩ : Position)] =
        [(⟨STicker.contract 0 1, 5⟩ : Position)].length) ∧
      ((ticker_to_quantity_get [(⟨STicker.contract 0 1, 5⟩ : Position)]
          (STicker.contract 0 2) ≠ 0 →
        _get_current_exposure (QTicker.future 0 2) [(⟨STicker.contract 0 1, 5⟩ : Position)] =
          Except.ok (Exposure.ofSign (ticker_to_quantity_get
            [(⟨STicker.contract 0 1, 5⟩ : Position)] (STicker.contract 0 2)))) ∧
      (ticker_to_quantity_get [(⟨STicker.contract 0 1, 5⟩ : Position)]
          (STicker.contract 0 2) = 0 →
        (1 < ([(⟨STicker.contract 0 1, 5⟩ : Position)].filter
            (fun p => belongs_to_family (QTicker.future 0 2) p.ticker)).length →
          _get_current_exposure (QTicker.future 0 2) [(⟨STicker.contract 0 1, 5⟩ : Position)] =
            Except.error (PyError.assertionError
              "There should be no more then 1 position open for an already expired contract for a future ticker.")) ∧
        (∀ p, [(⟨STicker.contract 0 1, 5⟩ : Position)].filter
            (fun p => belongs_to_family (QTicker.future 0 2) p.ticker) = [p] →
          _get_current_exposure (QTicker.future 0 2) [(⟨STicker.contract 0 1, 5⟩ : Position)] =
            Except.ok (Exposure.ofSign p.quantity)) ∧
        ([(⟨STicker.contract 0 1, 5⟩ : Position)].filter
            (fun p => belongs_to_family (QTicker.future 0 2) p.ticker) = [] →
          _get_current_exposure (QTicker.future 0 2) [(⟨STicker.contract 0 1, 5⟩ : Position)] =
            Except.ok Exposure.OUT))) :=
  ⟨by decide, future_ticker_exposure_fallback 0 2 [⟨STicker.contract 0 1, 5⟩] (by decide)⟩

lemma samplerOK_take : SamplerOK takeSampler := by
  intro st xs k hk
  constructor
  · simp [takeSampler, hk]
  · exact (List.take_sublist k xs).subperm

/-- Claim C2: when cap enforcement runs and the count of open-position plus
new-position signals exceeds the configured maximum, only new-position
signals (ticker without an open position and suggested exposure other than
OUT) can be changed, and a change only rewrites the suggested exposure to
OUT: every signal whose ticker already has an open position is returned
unchanged, no signal is removed from the list, and the list length is
unchanged. -/
theorem cap_suppresses_only_new_position_signals :
    ∀ (r : PyRandomModel), SamplerOK r.sampleFn →
    ∀ (σ : ℕ) (positions : List Position) (maxOpen : ℕ) (now : ℚ)
      (signals out : List Signal),
      (signals.map Signal.id).Nodup →
      maxOpen < number_of_positions_to_be_open positions signals →
      _adjust_number_of_open_positions r σ positions maxOpen now signals = Except.ok out →
      out.length = signals.length ∧
        List.Forall₂ (fun s t => t = s ∨
          (t = { s with suggested_exposure := Exposure.OUT } ∧
            is_new_position_signal (open_positions_specific_tickers positions) s = true))
          signals out := by
  intro r hr σ positions maxOpen now signals out hnd hover hok
  rcases adjust_ok_elim hok with ⟨hno, _⟩ | ⟨_, hk, rfl⟩
  · exact absurd hover hno
  · have hsam := hr (r.seedFn now)
      (sorted_by_fraction_at_risk (new_positions_signals positions signals))
      (number_of_positions_to_be_open positions signals - maxOpen) hk
    refine ⟨List.length_map _ _, ?_⟩
    apply forall₂_map_self
    intro s hs
    unfold suppressByIds
    by_cases hmem : s.id ∈ (r.sampleFn (r.seedFn now)
        (sorted_by_fraction_at_risk (new_positions_signals positions signals))
        (number_of_positions_to_be_open positions signals - maxOpen)).map Signal.id
    · right
      rw [if_pos hmem]
      exact ⟨rfl, suppressed_id_is_new hnd hsam.2 hs hmem⟩
    · left
      rw [if_neg hmem]

/-- Claim C3: cap enforcement is deterministic and idempotent: its result
does not depend on the random generator state on entry, because the seed is
derived from the cycle timestamp alone (so the same cycle re-run with the
same timestamp suppresses the identical set of signals), and re-running it
on the already-capped output with the same timestamp and portfolio state
suppresses no further signals: the capped list is returned unchanged. -/
theorem cap_enforcement_deterministic_idempotent :
    ∀ (r : PyRandomModel), SamplerOK r.sampleFn →
    ∀ (σ σ2 : ℕ) (positions : List Position) (maxOpen : ℕ) (now : ℚ)
      (signals out : List Signal),
      (signals.map Signal.id).Nodup →
      (_adjust_number_of_open_positions r σ positions maxOpen now signals =
        _adjust_number_of_open_positions r σ2 positions maxOpen now signals) ∧
      (_adjust_number_of_open_positions r σ positions maxOpen now signals = Except.ok out →
        _adjust_number_of_open_positions r σ2 positions maxOpen now out = Except.ok out) := by
  intro r hr σ σ2 positions maxOpen now signals out hnd
  refine ⟨rfl, fun hok => ?_⟩
  rcases adjust_ok_elim hok with ⟨hno, rfl⟩ | ⟨hover, hk, rfl⟩
  · unfold _adjust_number_of_open_positions
    rw [if_neg hno]
  · have hsam := hr (r.seedFn now)
      (sorted_by_fraction_at_risk (new_positions_signals positions signals))
      (number_of_positions_to_be_open positions signals - maxOpen) hk
    have hnum := number_after_suppress hnd hsam.2
    have hle : ¬ maxOpen < number_of_positions_to_be_open positions
        (signals.map (suppressByIds ((r.sampleFn (r.seedFn now)
          (sorted_by_fraction_at_risk (new_positions_signals positions signals))
          (number_of_positions_to_be_open positions signals - maxOpen)).map Signal.id))) := by
      rw [hnum, hsam.1]
      omega
    unfold _adjust_number_of_open_positions
    rw [if_neg hle]

theorem cap_suppresses_only_new_position_signals_witness :
    SamplerOK rTake.sampleFn ∧
      (([sigA, sigB].map Signal.id).Nodup ∧
        1 < number_of_positions_to_be_open [] [sigA, sigB] ∧
        _adjust_number_of_open_positions rTake 0 [] 1 0 [sigA, sigB] =
          Except.ok [sigA, { sigB with suggested_exposure := Exposure.OUT }]) ∧
      ([sigA, { sigB with suggested_exposure := Exposure.OUT }].length = [sigA, sigB].length ∧
        List.Forall₂ (fun s t => t = s ∨
          (t = { s with suggested_exposure := Exposure.OUT } ∧
            is_new_position_signal (open_positions_specific_tickers []) s = true))
          [sigA, sigB] [sigA, { sigB with suggested_exposure := Exposure.OUT }]) :=
  ⟨samplerOK_take, ⟨by decide, by decide, by decide⟩,
    cap_suppresses_only_new_position_signals rTake samplerOK_take 0 [] 1 0 [sigA, sigB]
      [sigA, { sigB with suggested_exposure := Exposure.OUT }]
      (by decide) (by decide) (by decide)⟩

theorem cap_enforcement_deterministic_idempotent_witness :
    SamplerOK rTake.sampleFn ∧
      ([sigA, sigB].map Signal.id).Nodup ∧
      (_adjust_number_of_open_positions rTake 0 [] 1 0 [sigA, sigB] =
        _adjust_number_of_open_positions rTake 5 [] 1 0 [sigA, sigB]) ∧
      (_adjust_number_of_open_positions rTake 5 [] 1 0
          [sigA, { sigB with suggested_exposure := Exposure.OUT }] =
        Except.ok [sigA, { sigB with suggested_exposure := Exposure.OUT }]) :=
  ⟨samplerOK_take, by decide,
    (cap_enforcement_deterministic_idempotent rTake samplerOK_take 0 5 [] 1 0 [sigA, sigB]
      [sigA, { sigB with suggested_exposure := Exposure.OUT }] (by decide)).1,
    (cap_enforcement_deterministic_idempotent rTake samplerOK_take 0 5 [] 1 0 [sigA, sigB]
      [sigA, { sigB with suggested_exposure := Exposure.OUT }] (by decide)).2 (by decide)⟩

lemma new_positions_sig_pair :
    new_positions_signals [] [sig05, sig01] = [sig05, sig01] := rfl

lemma sorted_sig_pair :
    sorted_by_fraction_at_risk [sig05, sig01] = [sig01, sig05] := by
  have hc : ¬ (sig05.fraction_at_risk ≤ sig01.fraction_at_risk) := by
    norm_num [sig05, sig01]
  simp [sorted_by_fraction_at_risk, insertByFar, hc]

/-- Claim C8 amended: in the scenario max_open_positions = 1, zero existing
positions and two new-position signals with fraction_at_risk 0.01 and 0.05
(listed here in descending order), the candidates are first sorted ascending
by fraction_at_risk and then handed to the timestamp-seeded sampler; exactly
one of the two signals — the one the sampler draws, not necessarily the one
with the lowest fraction_at_risk — is suppressed to OUT, and the other
proceeds to sizing unchanged. -/
theorem cap_scenario_sorted_then_one_suppressed :
    ∀ (r : PyRandomModel), SamplerOK r.sampleFn → ∀ (σ : ℕ) (now : ℚ),
      (_adjust_number_of_open_positions r σ [] 1 now [sig05, sig01] =
        Except.ok ([sig05, sig01].map (suppressByIds
          ((r.sampleFn (r.seedFn now) [sig01, sig05] 1).map Signal.id)))) ∧
      (_adjust_number_of_open_positions r σ [] 1 now [sig05, sig01] =
          Except.ok [sig05, { sig01 with suggested_exposure := Exposure.OUT }] ∨
        _adjust_number_of_open_positions r σ [] 1 now [sig05, sig01] =
          Except.ok [{ sig05 with suggested_exposure := Exposure.OUT }, sig01]) := by
  intro r hr σ now
  have hn : number_of_positions_to_be_open [] [sig05, sig01] = 2 := by decide
  have hmain : _adjust_number_of_open_positions r σ [] 1 now [sig05, sig01] =
      Except.ok ([sig05, sig01].map (suppressByIds
        ((r.sampleFn (r.seedFn now) [sig01, sig05] 1).map Signal.id))) := by
    unfold _adjust_number_of_open_positions
    rw [hn, new_positions_sig_pair, sorted_sig_pair]
    rw [if_pos (by omega)]
    unfold pySample
    rw [if_pos (by simp)]
  refine ⟨hmain, ?_⟩
  have hsam := hr (r.seedFn now) [sig01, sig05] 1 (by simp)
  obtain ⟨x, hx⟩ := List.length_eq_one.mp hsam.1
  have hxmem : x ∈ [sig01, sig05] := hsam.2.subset (by rw [hx]; exact List.mem_singleton_self x)
  rcases List.mem_cons.mp hxmem with rfl | hxm
  · left
    rw [hmain, hx]
    simp [suppressByIds, sig01, sig05]
  · right
    have hx5 : x = sig05 := List.mem_singleton.mp hxm
    subst hx5
    rw [hmain, hx]
    simp [suppressByIds, sig01, sig05]

theorem cap_scenario_sorted_then_one_suppressed_witness :
    SamplerOK rTake.sampleFn ∧
      ((_adjust_number_of_open_positions rTake 0 [] 1 0 [sig05, sig01] =
        Except.ok ([sig05, sig01].map (suppressByIds
          ((rTake.sampleFn (rTake.seedFn 0) [sig01, sig05] 1).map Signal.id)))) ∧
      (_adjust_number_of_open_positions rTake 0 [] 1 0 [sig05, sig01] =
          Except.ok [sig05, { sig01 with suggested_exposure := Exposure.OUT }] ∨
        _adjust_number_of_open_positions rTake 0 [] 1 0 [sig05, sig01] =
          Except.ok [{ sig05 with suggested_exposure := Exposure.OUT }, sig01])) :=
  ⟨samplerOK_take, cap_scenario_sorted_then_one_suppressed rTake samplerOK_take 0 0⟩

/-- Claim C8 counterexample: suppression is not pinned to the signal with
the lowest fraction_at_risk. `random.sample` draws uniformly from the whole
sorted candidate list, so its contract (any length-k subset of the
candidates) admits draws that keep the lowest-risk signal: with a sampler
satisfying that contract, the claim's scenario suppresses the signal with
fraction_at_risk 0.05 and the 0.01 signal proceeds to sizing, contradicting
the claim that the lowest-fraction_at_risk signal is the suppressed one. -/
theorem cap_scenario_highest_far_suppressed :
    SamplerOK revSampler ∧
      _adjust_number_of_open_positions rRev 0 [] 1 0 [sig05, sig01] =
        Except.ok [{ sig05 with suggested_exposure := Exposure.OUT }, sig01] := by
  constructor
  · intro st xs k hk
    constructor
    · simp [revSampler, hk]
    · exact ((List.take_sublist k xs.reverse).subperm).trans xs.reverse_perm.subperm
  · have hn : number_of_positions_to_be_open [] [sig05, sig01] = 2 := by decide
    unfold _adjust_number_of_open_positions
    rw [hn, new_positions_sig_pair, sorted_sig_pair]
    rw [if_pos (by omega)]
    unfold pySample
    rw [if_pos (by simp)]
    simp [rRev, revSampler, suppressByIds, sig01, sig05]
